import Mathlib

/-!
Verification development for the `parser_doski` repository (`src/parser.py`):
a crawler for the classifieds site `www.doski.ru`.  The Python source is
shallowly embedded below: pure fragments become Lean functions, the DOM-query
collaborator (BeautifulSoup) is modelled by the abstract query results the
source actually reads (selected rows, anchors, link lists), the HTTP transport
and the headless browser are modelled by outcome oracles, and Python
exceptions become `Except` results.  Machine-level details (timeouts as wall
clock, logging text) are out of scope; counts of emitted notification messages
and of performed attempts are tracked explicitly where the specification
speaks about them.
-/

set_option autoImplicit false

namespace Doski

/-! ## URL model

The source resolves every relative reference with
`urllib.parse.urljoin(self.base_url, x)` where `self.base_url` is the fixed
string `https://www.doski.ru` (scheme `https`, host `www.doski.ru`, empty
path).  We model `urljoin` for exactly this base. -/

/-- The fixed base URL installed in `DoskiParser.__init__`. -/
def base_url : String := "https://www.doski.ru"

/-- Characters allowed in a URL scheme after the leading letter
(`RFC 3986`, as implemented by `urllib.parse`). -/
def isSchemeChar (c : Char) : Bool :=
  c.isAlpha || c.isDigit || c = '+' || c = '-' || c = '.'

/-- Scans the tail of a candidate scheme: succeeds on reaching `:`. -/
def schemeTail : List Char → Bool
  | [] => false
  | c :: rest => if c = ':' then true else isSchemeChar c && schemeTail rest

/-- A character list starts with a URL scheme (`letter (letter|digit|+|-|.)* :`). -/
def hasSchemeChars : List Char → Bool
  | [] => false
  | c :: rest => c.isAlpha && schemeTail rest

/-- A string is an absolute URI reference: it carries a scheme. -/
def hasScheme (s : String) : Bool := hasSchemeChars s.data

/-- Splits a character list at every occurrence of `c` (the semantics of
Python `str.split(c)`): the result is never empty and keeps empty pieces. -/
def splitChar (c : Char) : List Char → List (List Char)
  | [] => [[]]
  | x :: xs =>
    let r := splitChar c xs
    if x = c then [] :: r
    else
      match r with
      | [] => [[x]]
      | h :: t => (x :: h) :: t

/-- Models Python `str.split(sep)` for a one-character separator. -/
def py_split (c : Char) (s : String) : List String :=
  (splitChar c s.data).map String.mk

/-- Models `str.startswith` / `String.startsWith` on the character lists. -/
def str_startsWith (s pre : String) : Bool := pre.data.isPrefixOf s.data

/-- Models Python `str.lower()` (ASCII case folding, which is all the
exclusion check needs). -/
def str_toLower (s : String) : String := ⟨s.data.map Char.toLower⟩

/-- Models Python slicing `s[:n]` (by code points). -/
def str_take (s : String) (n : Nat) : String := ⟨s.data.take n⟩

/-- Models `urllib.parse.urljoin(base_url, u)` for the fixed base
`https://www.doski.ru`.  An empty reference returns the base; a reference
carrying its own scheme is returned unchanged (for a scheme outside
`uses_relative`, and the base itself for the degenerate same-scheme relative
forms the source never produces); protocol-relative, fragment, query and
path references are resolved against the base.  Dot-segment normalization
is not modelled: the base has an empty path, so the resolved string differs
from CPython only on `..` segments, which never affects absoluteness. -/
def urljoin_base (u : String) : String :=
  if u = "" then base_url
  else if hasScheme u then u
  else if str_startsWith u "//" then "https:" ++ u
  else if str_startsWith u "#" then base_url ++ u
  else if str_startsWith u "?" then base_url ++ u
  else if str_startsWith u "/" then base_url ++ u
  else base_url ++ "/" ++ u

/-- Models the Python substring test `needle in hay`. -/
def str_contains (hay needle : String) : Bool :=
  (List.range (hay.data.length + 1)).any fun i => needle.data.isPrefixOf (hay.data.drop i)

/-! ## Listing Extractor, table-row strategy (`DoskiParser._extract_listings`)

`soup.select('table.ml tr')` yields a list of rows; per row the code reads
`select_one('a.sbj')` (text, `href` attribute, and the first string sibling
after the next `<br>`) and `select_one('td[align="right"] b')` (text).  A row
is modelled by exactly these query results; texts carry the result of
`get_text(strip=True)`.  A missing `href` attribute makes the subscript
`title_elem['href']` raise `KeyError`, modelled as `Except.error`. -/

/-- The `a.sbj` anchor of a row, as the source queries it. -/
structure SbjAnchor where
  /-- Result of `get_text(strip=True)` on the anchor. -/
  text : String
  /-- The `href` attribute; `none` when the attribute is absent. -/
  href : Option String
  /-- The string sibling following the first `<br>` after the anchor
  (`title_elem.find_next('br').next_sibling` when that is a string). -/
  desc_after_br : Option String
deriving DecidableEq

/-- One row of `soup.select('table.ml tr')`, as the source queries it. -/
structure TableRow where
  /-- Result of `row.select_one('a.sbj')`. -/
  sbj : Option SbjAnchor
  /-- Text of `row.select_one('td[align="right"] b')` when present. -/
  price_text : Option String
deriving DecidableEq

/-- The listing record built by the table-row strategy. -/
structure Listing where
  id : String
  title : String
  url : String
  price : String
  description : String
  parsed_at : String
deriving DecidableEq

/-- Models `url.split('/')[-1].split('.')[0]` (Python `split` never returns
an empty list, so the defaults are never taken). -/
def idFromUrl (url : String) : String :=
  ((py_split '.' ((py_split '/' url).getLastD "")).headD "")

/-- Models `DoskiParser._extract_listings` (src/parser.py lines 275-319; the
module-level duplicate at lines 57-94 is textually identical logic).  Rows
without an `a.sbj` anchor are skipped; an anchor without `href` raises
`KeyError` (the error case), aborting the whole extraction; `now` is the
`datetime.now().isoformat()` timestamp of record creation. -/
def _extract_listings : List TableRow → String → Except String (List Listing)
  | [], _ => Except.ok []
  | ⟨none, _⟩ :: rest, now => _extract_listings rest now
  | ⟨some ⟨_, none, _⟩, _⟩ :: _, _ => Except.error "KeyError: href"
  | ⟨some ⟨text, some href, desc_after_br⟩, price_text⟩ :: rest, now =>
    let url := urljoin_base href
    match _extract_listings rest now with
    | Except.error e => Except.error e
    | Except.ok tail =>
        Except.ok
          ({ id := idFromUrl url
             title := text
             url := url
             price := price_text.getD ""
             description := (desc_after_br.map String.trim).getD ""
             parsed_at := now } :: tail)

/-! ## Listing Extractor, generic-item strategy (`DoskiParser._parse_listing_item`)

An item container is modelled by the query results the code reads: per
CSS selector string the text of `item.select_one(selector)` (if any element
matches; its stripped text may be empty), the `href` of
`item.find('a', href=True)`, and the `src` attributes of
`item.find_all('img', src=True)`.  `validate_url` lives in `utils`, which is
not under `src/`; the discovery and image paths are therefore parameterized
by the URL-validity predicate `validate`. -/

/-- One generic item container, as `DoskiParser._parse_listing_item`
queries it. -/
structure Item where
  /-- For each selector string, `item.select_one(sel)` text when an element
  matches (`some ""` when the matched element has empty stripped text). -/
  select_one : String → Option String
  /-- The `href` of `item.find('a', href=True)`, when such an anchor exists. -/
  first_href : Option String
  /-- The `src` attributes of `item.find_all('img', src=True)`, in order. -/
  img_srcs : List String

/-- The title selector cascade of `_parse_listing_item`. -/
def title_selectors : List String := ["h2", "h3", ".title", "[class*=\"title\"]", "a"]

/-- The price selector cascade of `_parse_listing_item`. -/
def price_selectors : List String := [".price", "[class*=\"price\"]", "[class*=\"cost\"]"]

/-- The location selector cascade of `_parse_listing_item`. -/
def location_selectors : List String := [".location", "[class*=\"location\"]", "[class*=\"city\"]"]

/-- The description selector cascade of `_parse_listing_item`. -/
def desc_selectors : List String := [".description", ".desc", "[class*=\"description\"]"]

/-- First-match-wins cascade: the text of the first selector whose
`select_one` finds an element (even if that text is empty), as the
`for selector in ...: if elem: ...; break` loops do. -/
def cascade_text (item : Item) : List String → Option String
  | [] => none
  | sel :: rest =>
    match item.select_one sel with
    | some t => some t
    | none => cascade_text item rest

/-- Models CPython `hash` on strings as the source uses it
(`str(hash(title))[:10]`): randomized per process but fixed within one
session, so any fixed function is a faithful model of one session. -/
def pyHash (s : String) : Int :=
  s.foldl (fun h c => (h * 1000003 + (c.toNat : Int)) % 2305843009213693951) 0

/-- The listing record built by the generic-item strategy, with the fields
the initial dict of `_parse_listing_item` declares. -/
structure ItemListing where
  id : Option String
  title : String
  description : String
  price : String
  location : String
  date : String
  url : String
  images : List String
  parsed_at : String
deriving DecidableEq

/-- Models `DoskiParser._parse_listing_item` (src/parser.py lines 321-379):
field cascades, image collection filtered by `validate_url`, id derivation
(last non-empty path segment of the url, else a truncated title hash), and
the final discard of records whose title is empty. -/
def _parse_listing_item (validate : String → Bool) (item : Item) (now : String) :
    Option ItemListing :=
  let title := (cascade_text item title_selectors).getD ""
  let url := match item.first_href with
    | some h => urljoin_base h
    | none => ""
  let price := (cascade_text item price_selectors).getD ""
  let location := (cascade_text item location_selectors).getD ""
  let description := ((cascade_text item desc_selectors).map (fun t => str_take t 200)).getD ""
  let images := item.img_srcs.filterMap fun src =>
    let u := urljoin_base src
    if validate u then some u else none
  let id : Option String :=
    if url ≠ "" then
      let parts := (py_split '/' url).filter (fun p => p ≠ "")
      if parts.isEmpty then none else some (parts.getLastD "")
    else if title ≠ "" then some (str_take (toString (pyHash title)) 10)
    else none
  if title ≠ "" then
    some { id := id, title := title, description := description, price := price,
           location := location, date := "", url := url, images := images,
           parsed_at := now }
  else none

/-- Erases the creation timestamp of a table-strategy record (for the
idempotence-modulo-`parsed_at` statements). -/
def Listing.eraseParsedAt (l : Listing) : Listing := { l with parsed_at := "" }

/-- Erases the creation timestamp of a generic-strategy record. -/
def ItemListing.eraseParsedAt (l : ItemListing) : ItemListing := { l with parsed_at := "" }

/-! ## Proxy Rotation Manager (`_set_proxy`, `_rotate_proxy`)

`session.proxies` is `{}` (no proxy) or `{'http': p, 'https': p}` for one
proxy URL `p`; it is modelled as `Option String`.  `_set_proxy` on a
`socks...` URL needs the optional `socks` package: its availability is the
`socks_available` flag.  The wrapping `try` of `_set_proxy` makes it return
`False` rather than raise. -/

/-- The mutable parser state the proxy manager and fetcher touch. -/
structure ParserState where
  proxy_list : List String
  current_proxy_index : Nat
  session_proxies : Option String
deriving DecidableEq

/-- Models `DoskiParser._set_proxy` (src/parser.py lines 177-201): installs
the proxy on the session and reports success; a SOCKS URL without the
`socks` package leaves the session untouched and reports failure. -/
def _set_proxy (socks_available : Bool) (st : ParserState) (proxy_url : String) :
    ParserState × Bool :=
  if str_startsWith proxy_url "socks" then
    if socks_available then ({ st with session_proxies := some proxy_url }, true)
    else (st, false)
  else ({ st with session_proxies := some proxy_url }, true)

/-- Models `DoskiParser._rotate_proxy` (src/parser.py lines 203-214): returns
`false` leaving the state untouched when the pool has at most one entry
(`if not self.proxy_list or len(self.proxy_list) <= 1`); otherwise advances
`current_proxy_index` modulo the pool size and activates the new entry. -/
def _rotate_proxy (socks_available : Bool) (st : ParserState) : ParserState × Bool :=
  if st.proxy_list.length ≤ 1 then (st, false)
  else
    let idx := (st.current_proxy_index + 1) % st.proxy_list.length
    let new_proxy := st.proxy_list.getD idx ""
    _set_proxy socks_available { st with current_proxy_index := idx } new_proxy

/-- `n` consecutive `_rotate_proxy` calls (keeping only the state). -/
def rotate_iter (socks_available : Bool) : Nat → ParserState → ParserState
  | 0, st => st
  | n + 1, st => rotate_iter socks_available n (_rotate_proxy socks_available st).1

/-! ## Resilient Fetcher (`DoskiParser._fetch_page`)

The transport is an oracle mapping the ordinal of each issued GET to its
outcome.  `requests.Session.get` / `raise_for_status` raise only
`requests.RequestException` subclasses; `ProxyError` and `ConnectionError`
(the retryable transport faults) are distinguished from the rest, exactly
the `except` structure of the source — so every transport fault is caught
and the embedding is a total function: no exception escapes. -/

/-- Outcome of one `self.session.get(url, ...)` + `raise_for_status()` call. -/
inductive FetchOutcome where
  /-- A response that raises no `RequestException`. -/
  | success (body : String)
  /-- `requests.exceptions.ProxyError` or `requests.exceptions.ConnectionError`. -/
  | proxy_error
  /-- Any other `requests.RequestException` (HTTP error status, timeout, ...). -/
  | request_error
deriving DecidableEq

/-- The parser configuration fields `_fetch_page` and `_rotate_proxy` read. -/
structure Config where
  proxy_enabled : Bool
  proxy_rotate : Bool
deriving DecidableEq

/-- What `_fetch_page` produces: the returned value (`none` is the Python
`None`, the Unavailable result), the final session state, the number of
notification messages sent to the Telegram channel, and the number of GET
attempts performed with proxying disabled. -/
structure FetchResult where
  response : Option String
  final_state : ParserState
  notifications : Nat
  direct_attempts : Nat
deriving DecidableEq

/-- The `for proxy_attempt in range(max_proxy_retries)` loop of
`_fetch_page`: `n` remaining iterations, `k` the ordinal of the next GET.
Returns the response (if any), the state after the loop, and the ordinal of
the next GET after the loop. -/
def fetch_loop (transport : Nat → FetchOutcome) (cfg : Config) (socks_available : Bool) :
    Nat → Nat → ParserState → Option String × ParserState × Nat
  | 0, k, st => (none, st, k)
  | n + 1, k, st =>
    match transport k with
    | FetchOutcome.success body => (some body, st, k + 1)
    | FetchOutcome.request_error => (none, st, k + 1)
    | FetchOutcome.proxy_error =>
      if cfg.proxy_rotate then
        match _rotate_proxy socks_available st with
        | (st1, true) => fetch_loop transport cfg socks_available n (k + 1) st1
        | (st1, false) => (none, st1, k + 1)
      else (none, st, k + 1)

/-- Models the terminal block of `_fetch_page` after the retry loop failed
(src/parser.py lines 259-273): when `session.proxies` is non-empty and
proxying is enabled, exactly one direct (proxyless) attempt runs — returned
on success with the session left direct, the old proxies restored on
failure; any terminal failure sends one notification and returns `None`. -/
def fetch_direct_fallback (transport : Nat → FetchOutcome) (cfg : Config)
    (st1 : ParserState) (k : Nat) : FetchResult :=
  if st1.session_proxies.isSome && cfg.proxy_enabled then
    match transport k with
    | FetchOutcome.success body =>
        ⟨some body, { st1 with session_proxies := none }, 0, 1⟩
    | _ => ⟨none, st1, 1, 1⟩
  else ⟨none, st1, 1, 0⟩

/-- Models `DoskiParser._fetch_page` (src/parser.py lines 233-273):
robots-denied URLs short-circuit to `None`; otherwise up to
`max(1, len(proxy_list))` attempts run through the retry loop; on loop
failure the terminal block `fetch_direct_fallback` runs. -/
def _fetch_page (transport : Nat → FetchOutcome) (cfg : Config)
    (socks_available : Bool) : Bool → ParserState → FetchResult
  | false, st => ⟨none, st, 0, 0⟩
  | true, st =>
    match fetch_loop transport cfg socks_available
        (if st.proxy_list.isEmpty then 1 else st.proxy_list.length) 0 st with
    | (some body, st1, _) => ⟨some body, st1, 0, 0⟩
    | (none, st1, k) => fetch_direct_fallback transport cfg st1 k

/-! ## Dynamic Render Fetcher (`get_rendered_html`)

The headless-browser collaborator is modelled by an environment: whether
`driver.get(url)` raises (page-load timeout or browser fault) and the
rendered `page_source`.  The embedding returns the call result together
with the trace of driver operations actually executed, in source order. -/

/-- Driver operations of `get_rendered_html`, in source order. -/
inductive BrowserEvent where
  | create
  | set_page_load_timeout
  | navigate
  | sleep
  | read_page_source
  | quit
deriving DecidableEq

/-- Behaviour of the browser collaborator for one render call. -/
structure RenderEnv where
  /-- `some e` when `driver.get(url)` raises (timeout / automation fault). -/
  nav_raises : Option String
  /-- `driver.page_source` on the success path. -/
  page_source : String

/-- Models `get_rendered_html` (src/parser.py lines 30-43).  The function
body has no `try`/`finally`: when `driver.get` raises, the exception
propagates immediately and the statements after it — including
`driver.quit()` — are not executed. -/
def get_rendered_html (env : RenderEnv) : Except String String × List BrowserEvent :=
  match env.nav_raises with
  | some e =>
      (Except.error e,
       [BrowserEvent.create, BrowserEvent.set_page_load_timeout, BrowserEvent.navigate])
  | none =>
      (Except.ok env.page_source,
       [BrowserEvent.create, BrowserEvent.set_page_load_timeout, BrowserEvent.navigate,
        BrowserEvent.sleep, BrowserEvent.read_page_source, BrowserEvent.quit])

/-! ## Category Discoverer (`DoskiParser.parse_main_page`)

The soup of the fetched home page is modelled as the map from each selector
string to the link list `soup.select(selector)` returns; a link carries its
`href` (`link.get('href', '')`, empty when absent) and its stripped text. -/

/-- One `<a>` element as the discovery loop reads it. -/
structure Link where
  href : String
  text : String
deriving DecidableEq

/-- The ordered selector cascade of `parse_main_page`. -/
def category_selectors : List String :=
  ["a[href*=\"/cat-\"]", "a[href*=\"/category/\"]", "a[href*=\"/cat/\"]",
   "a[href*=\"/section/\"]", "a[href*=\"/region/\"]", "a[href*=\"/city/\"]",
   ".category-link", "[class*=\"category\"] a", "nav a", ".menu a", "a"]

/-- The exclusion substrings checked against `href.lower()`. -/
def skip_substrings : List String :=
  ["mailto:", "tel:", "javascript:", "#", "login", "register", "search"]

/-- The per-link retention test of the collection loop:
`href and text and len(text) > 2 and len(text) < 50` and no exclusion
substring occurs in the lowercased href. -/
def link_ok (l : Link) : Bool :=
  l.href ≠ "" && l.text ≠ "" && decide (2 < l.text.length) && decide (l.text.length < 50) &&
  !(skip_substrings.any fun s => str_contains (str_toLower l.href) s)

/-- The `all_links` accumulation: for each selector in cascade order, every
returned link passing `link_ok`, tagged with the selector that found it. -/
def all_links (soup : String → List Link) : List (String × Link) :=
  category_selectors.flatMap fun sel => ((soup sel).filter link_ok).map fun l => (sel, l)

/-- A discovered or fallback category; `found_by` is absent on the fallback
entries (their dicts carry no such key). -/
structure Category where
  name : String
  url : String
  found_by : Option String
deriving DecidableEq

/-- The `categories` list: each collected link resolved against the base URL
and kept when `validate_url` accepts the result. -/
def categoriesOf (validate : String → Bool) (soup : String → List Link) : List Category :=
  (all_links soup).filterMap fun p =>
    let u := urljoin_base p.2.href
    if validate u then some ⟨p.2.text, u, some p.1⟩ else none

/-- The `seen`-set deduplication loop: keeps the first category carrying
each URL, in order. -/
def dedupGo (seen : List String) : List Category → List Category
  | [] => []
  | c :: rest =>
    if seen.contains c.url then dedupGo seen rest
    else c :: dedupGo (c.url :: seen) rest

/-- Deduplication by URL, first occurrence wins, order preserved. -/
def dedupByUrl (l : List Category) : List Category := dedupGo [] l

/-- The fixed built-in fallback list of 8 known category URLs. -/
def fallback_categories : List Category :=
  [⟨"Недвижимость - Квартиры продажа", base_url ++ "/cat-nedvizhimost/zhilaya/kvartiry/prodam/", none⟩,
   ⟨"Недвижимость - Квартиры аренда", base_url ++ "/cat-nedvizhimost/zhilaya/kvartiry/sdau/", none⟩,
   ⟨"Транспорт - Легковые авто", base_url ++ "/cat-transport/legkovye-avtomobili/prodam/", none⟩,
   ⟨"Недвижимость - Дома продажа", base_url ++ "/cat-nedvizhimost/zhilaya/doma-dachi/prodam/", none⟩,
   ⟨"Детские товары", base_url ++ "/cat-detskiy-mir/detskaya-odezhda-obuv/detskaya-odezhda/prodam/", none⟩,
   ⟨"Животные - Собаки", base_url ++ "/cat-zhivotnye-i-rasteniya/sobaki/podaru/", none⟩,
   ⟨"Одежда женская", base_url ++ "/cat-lichnye-veschi/odezhda/platya-bluzki-ubki/", none⟩,
   ⟨"Работа - Вакансии", base_url ++ "/cat-rabota/vakansii/", none⟩]

/-- The discovery portion of `parse_main_page` given the fetched home-page
soup: collect, resolve, validate, deduplicate; below 3 unique categories
the fallback list capped at 5 replaces the result, otherwise the discovered
list is capped at 5. -/
def parse_main_page_discovery (validate : String → Bool) (soup : String → List Link) :
    List Category :=
  let unique_categories := dedupByUrl (categoriesOf validate soup)
  if unique_categories.length < 3 then fallback_categories.take 5
  else unique_categories.take 5

/-- Models `DoskiParser.parse_main_page` (src/parser.py lines 426-522):
a failed home-page fetch returns the empty list, otherwise discovery runs
on the fetched soup. -/
def parse_main_page (validate : String → Bool) (fetched : Option (String → List Link)) :
    List Category :=
  match fetched with
  | none => []
  | some soup => parse_main_page_discovery validate soup

/-! ## Session loop (`DoskiParser.full_parse`)

Per category index the collaborator behaviour is an oracle: the listings
`parse_category` returns, or the exception it raises.  The per-category
`try`/`except` of the source converts a raised exception into one error
notification and continues the loop. -/

/-- The per-category loop of `full_parse`: returns
(total_listings, parsed_categories, error_notifications). -/
def full_parse_loop (behavior : Nat → Except String (List Listing)) :
    Nat → List Category → Nat × Nat × Nat
  | _, [] => (0, 0, 0)
  | i, _ :: rest =>
    match behavior i with
    | Except.ok listings =>
        let r := full_parse_loop behavior (i + 1) rest
        (listings.length + r.1, 1 + r.2.1, r.2.2)
    | Except.error _ =>
        let r := full_parse_loop behavior (i + 1) rest
        (r.1, r.2.1, 1 + r.2.2)

/-- Models the session loop of `DoskiParser.full_parse` (src/parser.py lines
524-551): iterates over `categories[:max_categories]`, counting stored
listings, successfully parsed categories and per-category error
notifications. -/
def full_parse (behavior : Nat → Except String (List Listing))
    (categories : List Category) (max_categories : Nat) : Nat × Nat × Nat :=
  full_parse_loop behavior 0 (categories.take max_categories)

/-! ## Concrete fixtures used by witnesses and counterexamples -/

/-- A table row whose `a.sbj` anchor has empty stripped text but a valid
href — e.g. `<tr><td><a class="sbj" href="/item/1.html"></a></td></tr>`. -/
def c1_row : TableRow := ⟨some ⟨"", some "/item/1.html", none⟩, none⟩

/-- The record `_extract_listings` builds from `c1_row`. -/
def c1_listing : Listing :=
  { id := "1", title := "", url := "https://www.doski.ru/item/1.html",
    price := "", description := "", parsed_at := "T" }

/-- A URL validator accepting everything (concrete witness instance of the
`validate_url` collaborator). -/
def accept_all : String → Bool := fun _ => true

/-- A generic item with an `h2` title and one link. -/
def item_h2 : Item :=
  ⟨fun sel => if sel = "h2" then some "Hello" else none, some "/x/1.html", []⟩

/-- The record `_parse_listing_item` builds from `item_h2`. -/
def item_h2_listing : ItemListing :=
  { id := some "1.html", title := "Hello", description := "", price := "",
    location := "", date := "", url := "https://www.doski.ru/x/1.html",
    images := [], parsed_at := "T" }

/-- A home-page soup in which no selector returns any link. -/
def soup_empty : String → List Link := fun _ => []

/-- A soup whose only link has an empty `href` attribute and a 3-character
visible text. -/
def soup_empty_href : String → List Link :=
  fun sel => if sel = "a" then [⟨"", "abc"⟩] else []

/-- A soup with a single qualifying category link, found by the catch-all
`a` selector. -/
def soup_one : String → List Link :=
  fun sel => if sel = "a" then [⟨"/cat-x/", "Category name"⟩] else []

/-- The category discovered from `soup_one`. -/
def cat_one : Category := ⟨"Category name", "https://www.doski.ru/cat-x/", some "a"⟩

/-- A three-proxy state at index 0. -/
def st_three : ParserState := ⟨["p1", "p2", "p3"], 0, some "p1"⟩

/-- A one-proxy state with the proxy active on the session. -/
def st_one : ParserState := ⟨["p1"], 0, some "p1"⟩

/-- A transport failing every attempt with a retryable proxy error. -/
def transport_proxy_error : Nat → FetchOutcome := fun _ => FetchOutcome.proxy_error

/-- Proxying enabled, rotation disabled. -/
def cfg_no_rotate : Config := ⟨true, false⟩

/-- The retention condition exactly as claim C7 words it: visible text
length between 3 and 49 inclusive and no exclusion substring in the href.
Stated from the claim wording, to be compared against the code condition
`link_ok` (which additionally requires a non-empty href). -/
def claimed_keep (l : Link) : Bool :=
  decide (3 ≤ l.text.length) && decide (l.text.length ≤ 49) &&
  !(skip_substrings.any fun s => str_contains (str_toLower l.href) s)

/-- A render call whose `driver.get` raises a page-load timeout. -/
def render_nav_timeout : RenderEnv := ⟨some "TimeoutException", ""⟩

/-! ## URL absoluteness lemmas -/

/-- Extending a character list past its scheme colon keeps the scheme scan
successful. -/
theorem schemeTail_append (l₁ l₂ : List Char) (h : schemeTail l₁ = true) :
    schemeTail (l₁ ++ l₂) = true := by
  induction l₁ with
  | nil => simp [schemeTail] at h
  | cons c rest ih =>
    simp only [schemeTail, List.cons_append] at h ⊢
    by_cases hc : c = ':'
    · simp [hc]
    · simp only [if_neg hc] at h ⊢
      rw [Bool.and_eq_true] at h
      rcases h with ⟨h1, h2⟩
      simp [h1, ih h2]

/-- A character list that starts with a scheme still does after appending. -/
theorem hasSchemeChars_append (l₁ l₂ : List Char) (h : hasSchemeChars l₁ = true) :
    hasSchemeChars (l₁ ++ l₂) = true := by
  cases l₁ with
  | nil => simp [hasSchemeChars] at h
  | cons c rest =>
    simp only [hasSchemeChars, List.cons_append] at h ⊢
    rw [Bool.and_eq_true] at h
    rcases h with ⟨h1, h2⟩
    simp [h1, schemeTail_append _ _ h2]

/-- Appending to an absolute URI keeps it absolute. -/
theorem hasScheme_append (s t : String) (h : hasScheme s = true) :
    hasScheme (s ++ t) = true := by
  rw [hasScheme, String.data_append]
  exact hasSchemeChars_append _ _ h

/-- The base URL is absolute. -/
theorem hasScheme_base_url : hasScheme base_url = true := by decide

/-- Every URL resolved against the base is absolute. -/
theorem hasScheme_urljoin_base (u : String) : hasScheme (urljoin_base u) = true := by
  simp only [urljoin_base]
  split
  · exact hasScheme_base_url
  split
  · next h => exact h
  split
  · exact hasScheme_append "https:" u (by decide)
  split
  · exact hasScheme_append base_url u hasScheme_base_url
  split
  · exact hasScheme_append base_url u hasScheme_base_url
  split
  · exact hasScheme_append base_url u hasScheme_base_url
  · exact hasScheme_append base_url ("/" ++ u) hasScheme_base_url

/-! ## Listing Extractor lemmas -/

/-- Every listing a successful table-row extraction returns carries an
absolute URL. -/
theorem extract_listings_url_absolute (rows : List TableRow) (now : String)
    (res : List Listing) (h : _extract_listings rows now = Except.ok res) :
    ∀ l ∈ res, hasScheme l.url = true := by
  induction rows generalizing res with
  | nil =>
    simp only [_extract_listings, Except.ok.injEq] at h
    subst h
    intro l hl
    cases hl
  | cons row rest ih =>
    obtain ⟨sbj, price_text⟩ := row
    cases sbj with
    | none =>
      simp only [_extract_listings] at h
      exact ih res h
    | some a =>
      obtain ⟨text, href, desc_after_br⟩ := a
      cases href with
      | none =>
        simp only [_extract_listings] at h
        exact Except.noConfusion h
      | some href =>
        simp only [_extract_listings] at h
        cases hr : _extract_listings rest now with
        | error e =>
          rw [hr] at h
          exact Except.noConfusion h
        | ok tail =>
          rw [hr] at h
          simp only [Except.ok.injEq] at h
          subst h
          intro l hl
          rcases List.mem_cons.mp hl with h1 | h2
          · subst h1; exact hasScheme_urljoin_base href
          · exact ih tail hr l h2

/-- The table-row extraction result, with timestamps erased, does not
depend on the creation timestamp. -/
theorem extract_listings_erase (rows : List TableRow) (t1 t2 : String) :
    (_extract_listings rows t1).map (List.map Listing.eraseParsedAt) =
      (_extract_listings rows t2).map (List.map Listing.eraseParsedAt) := by
  induction rows with
  | nil => rfl
  | cons row rest ih =>
    obtain ⟨sbj, price_text⟩ := row
    cases sbj with
    | none => simpa only [_extract_listings] using ih
    | some a =>
      obtain ⟨text, href, desc_after_br⟩ := a
      cases href with
      | none => rfl
      | some href =>
        simp only [_extract_listings]
        revert ih
        cases hr1 : _extract_listings rest t1 with
        | error e1 =>
          cases hr2 : _extract_listings rest t2 with
          | error e2 =>
            intro ih
            simp only [Except.map, Except.error.injEq] at ih ⊢
            exact ih
          | ok tail2 =>
            intro ih
            simp [Except.map] at ih
        | ok tail1 =>
          cases hr2 : _extract_listings rest t2 with
          | error e2 =>
            intro ih
            simp [Except.map] at ih
          | ok tail2 =>
            intro ih
            simp only [Except.map, List.map_cons, Except.ok.injEq, List.cons.injEq] at ih ⊢
            exact ⟨rfl, ih⟩

/-- The generic-item record, with its timestamp erased, does not depend on
the creation timestamp. -/
theorem parse_listing_item_erase (validate : String → Bool) (item : Item) (t1 t2 : String) :
    (_parse_listing_item validate item t1).map ItemListing.eraseParsedAt =
      (_parse_listing_item validate item t2).map ItemListing.eraseParsedAt := by
  simp only [_parse_listing_item]
  split
  · rfl
  · rfl

/-! ## Claim theorems: the Listing Extractor -/

/-- C1 counterexample: the HTML row `c1_row` has an `a.sbj` anchor with a
valid href but empty stripped text; `_extract_listings` appends the record
with `title = ""` instead of discarding it, so the claim that every
returned listing has a non-empty title (and that title-less records are
discarded) is false as stated. -/
theorem C1_empty_title_counterexample :
    _extract_listings [c1_row] "T" = Except.ok [c1_listing] ∧ c1_listing.title = "" :=
  ⟨rfl, rfl⟩

/-- C1 (amended): every listing a successful `_extract_listings` run returns
has an absolute URL (rows without an `a.sbj` anchor are skipped, but a row
whose anchor has empty text still yields a record with an empty title); in
`_parse_listing_item` every returned listing has a non-empty title and its
URL, when present, is absolute, and an item whose title cascade produces an
empty title is discarded (`None`). -/
theorem C1_amended_titles_and_urls (validate : String → Bool) (rows : List TableRow)
    (item : Item) (now : String) :
    (∀ res, _extract_listings rows now = Except.ok res →
        ∀ l ∈ res, hasScheme l.url = true) ∧
    (∀ l, _parse_listing_item validate item now = some l →
        l.title ≠ "" ∧ (l.url ≠ "" → hasScheme l.url = true)) ∧
    ((cascade_text item title_selectors).getD "" = "" →
        _parse_listing_item validate item now = none) := by
  refine ⟨fun res h => extract_listings_url_absolute rows now res h, ?_, ?_⟩
  · intro l h
    simp only [_parse_listing_item] at h
    cases hl : item.first_href with
    | none =>
      simp only [hl] at h
      split at h
      · next ht =>
        cases h
        exact ⟨ht, fun hu => (hu rfl).elim⟩
      · exact Option.noConfusion h
    | some href =>
      simp only [hl] at h
      split at h
      · next ht =>
        cases h
        exact ⟨ht, fun _ => hasScheme_urljoin_base href⟩
      · exact Option.noConfusion h
  · intro ht
    simp only [_parse_listing_item]
    split
    · next hne => exact absurd ht hne
    · rfl

/-- Witness for C1: the concrete item `item_h2` produces a record with a
non-empty title and an absolute URL. -/
theorem C1_amended_witness :
    item_h2_listing.title ≠ "" ∧
      (item_h2_listing.url ≠ "" → hasScheme item_h2_listing.url = true) :=
  (C1_amended_titles_and_urls accept_all [] item_h2 "T").2.1 item_h2_listing (by decide)

/-- C2 (confirmed): both extraction strategies are idempotent — on identical
input the outputs of two runs agree on every field except `parsed_at`
(the only field the creation timestamp flows into). -/
theorem C2_extraction_idempotent (rows : List TableRow) (validate : String → Bool)
    (item : Item) (t1 t2 : String) :
    (_extract_listings rows t1).map (List.map Listing.eraseParsedAt) =
      (_extract_listings rows t2).map (List.map Listing.eraseParsedAt) ∧
    (_parse_listing_item validate item t1).map ItemListing.eraseParsedAt =
      (_parse_listing_item validate item t2).map ItemListing.eraseParsedAt :=
  ⟨extract_listings_erase rows t1 t2, parse_listing_item_erase validate item t1 t2⟩

/-- A row is safe for the table-row extractor: either no `a.sbj` anchor
(the row is skipped) or the anchor carries an `href` attribute. -/
def row_has_href : TableRow → Bool
  | ⟨none, _⟩ => true
  | ⟨some a, _⟩ => a.href.isSome

/-- C10 (confirmed): the table-row extraction succeeds exactly when every
selected `a.sbj` anchor carries an `href` attribute; one anchor without it
makes the unguarded subscript raise, aborting the whole extraction rather
than skipping the row. -/
theorem C10_extract_listings_total_iff_hrefs (rows : List TableRow) (now : String) :
    (_extract_listings rows now).isOk = rows.all row_has_href := by
  induction rows with
  | nil => rfl
  | cons row rest ih =>
    obtain ⟨sbj, price_text⟩ := row
    cases sbj with
    | none =>
      simp only [_extract_listings, List.all_cons, row_has_href, Bool.true_and]
      exact ih
    | some a =>
      obtain ⟨text, href, desc_after_br⟩ := a
      cases href with
      | none =>
        simp only [_extract_listings, List.all_cons, row_has_href, Option.isSome,
          Bool.false_and, Except.isOk, Except.toBool]
      | some href =>
        simp only [_extract_listings, List.all_cons, row_has_href, Option.isSome,
          Bool.true_and]
        cases hr : _extract_listings rest now with
        | error e =>
          rw [hr] at ih
          simpa only [Except.isOk, Except.toBool] using ih
        | ok tail =>
          rw [hr] at ih
          simpa only [Except.isOk, Except.toBool] using ih
/-! ## Proxy Rotation Manager lemmas -/

/-- `_set_proxy` only touches the session proxies: pool and index are kept. -/
theorem set_proxy_preserves (sa : Bool) (st : ParserState) (p : String) :
    (_set_proxy sa st p).1.proxy_list = st.proxy_list ∧
    (_set_proxy sa st p).1.current_proxy_index = st.current_proxy_index := by
  simp only [_set_proxy]
  split
  · split <;> exact ⟨rfl, rfl⟩
  · exact ⟨rfl, rfl⟩

/-- Rotation never changes the proxy pool. -/
theorem rotate_proxy_preserves_list (sa : Bool) (st : ParserState) :
    (_rotate_proxy sa st).1.proxy_list = st.proxy_list := by
  simp only [_rotate_proxy]
  split
  · rfl
  · exact (set_proxy_preserves sa _ _).1

/-- With at least two proxies, rotation advances the index circularly. -/
theorem rotate_proxy_index (sa : Bool) (st : ParserState)
    (h : 2 ≤ st.proxy_list.length) :
    (_rotate_proxy sa st).1.current_proxy_index =
      (st.current_proxy_index + 1) % st.proxy_list.length := by
  simp only [_rotate_proxy]
  rw [if_neg (by omega)]
  exact (set_proxy_preserves sa _ _).2

/-- With at least two proxies, `n` rotations advance the index by `n`
modulo the pool size, provided the index starts in range. -/
theorem rotate_iter_index (sa : Bool) (n : Nat) (st : ParserState)
    (h2 : 2 ≤ st.proxy_list.length) (hlt : st.current_proxy_index < st.proxy_list.length) :
    (rotate_iter sa n st).current_proxy_index =
      (st.current_proxy_index + n) % st.proxy_list.length := by
  induction n generalizing st with
  | zero =>
    simp only [rotate_iter, Nat.add_zero]
    exact (Nat.mod_eq_of_lt hlt).symm
  | succ n ih =>
    simp only [rotate_iter]
    have hlist := rotate_proxy_preserves_list sa st
    have hidx := rotate_proxy_index sa st h2
    have hlt1 : (_rotate_proxy sa st).1.current_proxy_index <
        (_rotate_proxy sa st).1.proxy_list.length := by
      rw [hlist, hidx]
      exact Nat.mod_lt _ (by omega)
    have := ih (_rotate_proxy sa st).1 (by rw [hlist]; exact h2) hlt1
    rw [this, hlist, hidx, Nat.mod_add_mod]
    congr 1
    omega

/-! ## Claim theorems: Proxy Rotation Manager -/

/-- C5 (confirmed): `_rotate_proxy` is a no-op returning `false` when the
pool has 0 or 1 entries; with `K ≥ 2` entries it advances
`current_proxy_index` circularly modulo `K`; and `K` consecutive calls
(for a pool of size `K` and an in-range starting index) return the index
to its starting value. -/
theorem C5_rotate_proxy_circular (sa : Bool) (st : ParserState) :
    (st.proxy_list.length ≤ 1 → _rotate_proxy sa st = (st, false)) ∧
    (2 ≤ st.proxy_list.length →
      (_rotate_proxy sa st).1.current_proxy_index =
        (st.current_proxy_index + 1) % st.proxy_list.length) ∧
    (st.current_proxy_index < st.proxy_list.length →
      (rotate_iter sa st.proxy_list.length st).current_proxy_index =
        st.current_proxy_index) := by
  refine ⟨?_, rotate_proxy_index sa st, ?_⟩
  · intro h
    simp only [_rotate_proxy, if_pos h]
  · intro hlt
    rcases Nat.lt_or_ge st.proxy_list.length 2 with hsmall | hbig
    · interval_cases hlen : st.proxy_list.length
      · omega
      · have hrot : _rotate_proxy sa st = (st, false) := by
          simp only [_rotate_proxy, if_pos (by omega : st.proxy_list.length ≤ 1)]
        have h1 : rotate_iter sa 1 st = (_rotate_proxy sa st).1 := rfl
        rw [h1, hrot]
    · rw [rotate_iter_index sa st.proxy_list.length st hbig hlt,
        Nat.add_mod_right]
      exact Nat.mod_eq_of_lt hlt

/-- Witness for C5: three rotations on a three-proxy pool starting at
index 0 return the index to 0. -/
theorem C5_rotate_witness :
    (rotate_iter true st_three.proxy_list.length st_three).current_proxy_index =
      st_three.current_proxy_index :=
  (C5_rotate_proxy_circular true st_three).2.2 (by decide)

/-! ## Resilient Fetcher lemmas -/

/-- When the retry loop finds a response, `_fetch_page` returns it with no
notification and no direct attempt. -/
theorem fetch_page_of_loop_ok (transport : Nat → FetchOutcome) (cfg : Config)
    (sa : Bool) (st : ParserState) (body : String) (st1 : ParserState) (k : Nat)
    (h : fetch_loop transport cfg sa
        (if st.proxy_list.isEmpty then 1 else st.proxy_list.length) 0 st =
      (some body, st1, k)) :
    _fetch_page transport cfg sa true st = ⟨some body, st1, 0, 0⟩ := by
  simp only [_fetch_page, h]

/-- When the retry loop fails, `_fetch_page` runs the terminal block. -/
theorem fetch_page_of_loop_none (transport : Nat → FetchOutcome) (cfg : Config)
    (sa : Bool) (st : ParserState) (st1 : ParserState) (k : Nat)
    (h : fetch_loop transport cfg sa
        (if st.proxy_list.isEmpty then 1 else st.proxy_list.length) 0 st =
      (none, st1, k)) :
    _fetch_page transport cfg sa true st = fetch_direct_fallback transport cfg st1 k := by
  simp only [_fetch_page, h]

/-! ## Claim theorems: Resilient Fetcher -/

/-- C3 (confirmed): `_fetch_page` is a total function of the transport
behaviour — every fault the transport can raise is caught, so the call
always returns a response or the Unavailable result `none`; a successful
return sends no notification; a terminal failure with robots permitting
(all attempts exhausted) sends exactly one notification; a robots denial
returns Unavailable without any notification. -/
theorem C3_fetch_total_one_notification (transport : Nat → FetchOutcome)
    (cfg : Config) (sa ra : Bool) (st : ParserState) :
    ((_fetch_page transport cfg sa ra st).response.isSome = true →
        (_fetch_page transport cfg sa ra st).notifications = 0) ∧
    (ra = true → (_fetch_page transport cfg sa ra st).response = none →
        (_fetch_page transport cfg sa ra st).notifications = 1) ∧
    (ra = false → (_fetch_page transport cfg sa ra st).response = none ∧
        (_fetch_page transport cfg sa ra st).notifications = 0) := by
  cases ra with
  | false =>
    exact ⟨fun h => by simp [_fetch_page] at h, fun h => Bool.noConfusion h,
      fun _ => ⟨rfl, rfl⟩⟩
  | true =>
    cases hfl : fetch_loop transport cfg sa
        (if st.proxy_list.isEmpty then 1 else st.proxy_list.length) 0 st with
    | mk resp rest =>
      obtain ⟨st1, k⟩ := rest
      cases resp with
      | some body =>
        rw [fetch_page_of_loop_ok transport cfg sa st body st1 k hfl]
        simp
      | none =>
        rw [fetch_page_of_loop_none transport cfg sa st st1 k hfl]
        simp only [fetch_direct_fallback]
        by_cases hc : (st1.session_proxies.isSome && cfg.proxy_enabled) = true
        · rw [if_pos hc]
          cases htr : transport k with
          | success body => simp
          | proxy_error => simp
          | request_error => simp
        · rw [if_neg hc]
          simp

/-- Witness for C3: with one dead proxy and rotation disabled, the fetch
returns Unavailable and sends exactly one notification. -/
theorem C3_fetch_witness :
    (_fetch_page transport_proxy_error cfg_no_rotate true true st_one).notifications = 1 :=
  (C3_fetch_total_one_notification transport_proxy_error cfg_no_rotate true true st_one).2.1
    rfl (by decide)

/-- C8 (confirmed): when the retry loop ends without a response while the
session still has a proxy installed and proxying is enabled, exactly one
additional attempt runs with proxying disabled; its success is returned
(with the session left direct), and on its failure the previous proxy
configuration is restored before the terminal Unavailable result. -/
theorem C8_direct_fallback (transport : Nat → FetchOutcome) (cfg : Config) (sa : Bool)
    (st st1 : ParserState) (k : Nat)
    (hloop : fetch_loop transport cfg sa
        (if st.proxy_list.isEmpty then 1 else st.proxy_list.length) 0 st = (none, st1, k))
    (hprox : st1.session_proxies.isSome = true)
    (hen : cfg.proxy_enabled = true) :
    (_fetch_page transport cfg sa true st).direct_attempts = 1 ∧
    (∀ body, transport k = FetchOutcome.success body →
        (_fetch_page transport cfg sa true st).response = some body ∧
        (_fetch_page transport cfg sa true st).final_state.session_proxies = none) ∧
    ((∀ body, transport k ≠ FetchOutcome.success body) →
        (_fetch_page transport cfg sa true st).response = none ∧
        (_fetch_page transport cfg sa true st).final_state.session_proxies =
          st1.session_proxies) := by
  have hcond : (st1.session_proxies.isSome && cfg.proxy_enabled) = true := by
    rw [hprox, hen]; rfl
  rw [fetch_page_of_loop_none transport cfg sa st st1 k hloop]
  simp only [fetch_direct_fallback]
  rw [if_pos hcond]
  cases htr : transport k with
  | success body =>
    refine ⟨rfl, ?_, ?_⟩
    · intro b hb
      cases hb
      exact ⟨rfl, rfl⟩
    · intro hne
      exact absurd rfl (hne body)
  | proxy_error =>
    exact ⟨rfl, fun b hb => FetchOutcome.noConfusion hb, fun _ => ⟨rfl, rfl⟩⟩
  | request_error =>
    exact ⟨rfl, fun b hb => FetchOutcome.noConfusion hb, fun _ => ⟨rfl, rfl⟩⟩

/-- Witness for C8: the single dead proxy exhausts the loop; the one direct
attempt also fails, so the proxy configuration is left in place and the
direct attempt count is 1. -/
theorem C8_direct_fallback_witness :
    (_fetch_page transport_proxy_error cfg_no_rotate true true st_one).direct_attempts = 1 :=
  (C8_direct_fallback transport_proxy_error cfg_no_rotate true st_one st_one 1
    (by decide) rfl rfl).1

/-! ## Claim theorems: Dynamic Render Fetcher -/

/-- C4 (code bug): the claim says `driver.quit()` runs on every execution
path, but the source has no `try`/`finally` — when navigation raises (page
load timeout or any automation fault) the exception propagates before
`driver.quit()` is reached, so the browser session outlives the call; on the
success path the teardown does run. -/
theorem C4_browser_leak_on_nav_failure :
    (get_rendered_html render_nav_timeout).1 = Except.error "TimeoutException" ∧
    (get_rendered_html render_nav_timeout).2.contains BrowserEvent.quit = false ∧
    ∀ src : String,
      (get_rendered_html ⟨none, src⟩).2.contains BrowserEvent.quit = true :=
  ⟨rfl, rfl, fun _ => rfl⟩

/-! ## Claim theorems: session loop -/

/-- Filtering a list by a predicate and by its negation partitions it. -/
theorem length_filter_bool_partition {α : Type} (p : α → Bool) (l : List α) :
    (l.filter p).length + (l.filter fun x => !p x).length = l.length := by
  induction l with
  | nil => rfl
  | cons a l ih =>
    cases hp : p a <;> simp [List.filter_cons, hp, ← ih] <;> omega

/-- Per-index accounting of the session loop: successes and error
notifications exactly partition the visited slice, whatever the faults. -/
theorem full_parse_loop_counts (behavior : Nat → Except String (List Listing))
    (l : List Category) (i : Nat) :
    (full_parse_loop behavior i l).2.1 =
      ((List.range' i l.length).filter fun j => (behavior j).isOk).length ∧
    (full_parse_loop behavior i l).2.2 =
      ((List.range' i l.length).filter fun j => !(behavior j).isOk).length := by
  induction l generalizing i with
  | nil => exact ⟨rfl, rfl⟩
  | cons c rest ih =>
    have H := ih (i + 1)
    cases hb : behavior i with
    | ok listings =>
      have hok : (behavior i).isOk = true := by rw [hb]; rfl
      constructor <;>
        (simp [full_parse_loop, hb, List.range'_succ, List.filter_cons, hok,
          Except.isOk, Except.toBool, H.1, H.2]; try omega)
    | error e =>
      have hok : (behavior i).isOk = false := by rw [hb]; rfl
      constructor <;>
        (simp [full_parse_loop, hb, List.range'_succ, List.filter_cons, hok,
          Except.isOk, Except.toBool, H.1, H.2]; try omega)

/-- C9 (confirmed): a fault in any category never aborts the session — every
category of the visited slice `categories[:max_categories]` is processed
(successes plus error notifications add up to the slice length), and the
error notifications are exactly one per faulting category. -/
theorem C9_category_faults_isolated (behavior : Nat → Except String (List Listing))
    (categories : List Category) (max_categories : Nat) :
    (full_parse behavior categories max_categories).2.1 +
      (full_parse behavior categories max_categories).2.2 =
      (categories.take max_categories).length ∧
    (full_parse behavior categories max_categories).2.2 =
      ((List.range (categories.take max_categories).length).filter
        fun j => !(behavior j).isOk).length := by
  have H := full_parse_loop_counts behavior (categories.take max_categories) 0
  have hfp : full_parse behavior categories max_categories =
      full_parse_loop behavior 0 (categories.take max_categories) := rfl
  constructor
  · rw [hfp, H.1, H.2]
    have hpart := length_filter_bool_partition (fun j => (behavior j).isOk)
      (List.range' 0 (categories.take max_categories).length)
    rw [List.length_range'] at hpart
    exact hpart
  · rw [hfp, H.2, List.range_eq_range']

/-! ## Claim theorems: Category Discoverer -/

/-- C6 (confirmed): with fewer than 3 unique discovered categories the
result is exactly the first 5 entries of the 8-entry built-in fallback
list; with 3 or more it is the discovered (deduplicated, order-preserving)
list capped at 5. -/
theorem C6_fallback_activation (validate : String → Bool) (soup : String → List Link) :
    ((dedupByUrl (categoriesOf validate soup)).length < 3 →
      parse_main_page validate (some soup) = fallback_categories.take 5 ∧
      (parse_main_page validate (some soup)).length = 5 ∧
      fallback_categories.length = 8) ∧
    (3 ≤ (dedupByUrl (categoriesOf validate soup)).length →
      parse_main_page validate (some soup) =
        (dedupByUrl (categoriesOf validate soup)).take 5) := by
  constructor
  · intro h
    have he : parse_main_page validate (some soup) = fallback_categories.take 5 := by
      show parse_main_page_discovery validate soup = _
      simp only [parse_main_page_discovery]
      rw [if_pos h]
    exact ⟨he, by rw [he]; rfl, rfl⟩
  · intro h
    show parse_main_page_discovery validate soup = _
    simp only [parse_main_page_discovery]
    rw [if_neg (by omega)]

/-- Witness for C6: an empty home page discovers nothing, so the result is
the fallback list capped at 5. -/
theorem C6_fallback_witness :
    parse_main_page accept_all (some soup_empty) = fallback_categories.take 5 :=
  ((C6_fallback_activation accept_all soup_empty).1 (by decide)).1

/-! ## Category Discoverer lemmas -/

/-- The code retention test, unfolded into its component conditions. -/
theorem link_ok_iff (l : Link) :
    link_ok l = true ↔
      l.href ≠ "" ∧ l.text ≠ "" ∧ 3 ≤ l.text.length ∧ l.text.length ≤ 49 ∧
        ∀ s ∈ skip_substrings, str_contains (str_toLower l.href) s = false := by
  simp only [link_ok, Bool.and_eq_true, decide_eq_true_eq, Bool.not_eq_true',
    List.any_eq_false]
  constructor
  · rintro ⟨⟨⟨⟨h1, h2⟩, h3⟩, h4⟩, h5⟩
    refine ⟨h1, h2, by omega, by omega, fun s hs => ?_⟩
    exact Bool.eq_false_iff.mpr (h5 s hs)
  · rintro ⟨h1, h2, h3, h4, h5⟩
    refine ⟨⟨⟨⟨h1, h2⟩, by omega⟩, by omega⟩, fun s hs => ?_⟩
    simp [h5 s hs]

/-- Membership in the collected link list, characterized. -/
theorem mem_all_links (soup : String → List Link) (sel : String) (l : Link) :
    (sel, l) ∈ all_links soup ↔
      sel ∈ category_selectors ∧ l ∈ soup sel ∧ link_ok l = true := by
  simp only [all_links, List.mem_flatMap, List.mem_map, List.mem_filter, Prod.mk.injEq]
  constructor
  · rintro ⟨s, hs, l1, ⟨hl1, hok⟩, hseq, hleq⟩
    subst hseq; subst hleq
    exact ⟨hs, hl1, hok⟩
  · rintro ⟨hs, hl, hok⟩
    exact ⟨sel, hs, l, ⟨hl, hok⟩, rfl, rfl⟩

/-- Deduplication only ever drops elements, in place: the result is a
sublist (first-seen order preserved). -/
theorem dedupGo_sublist (seen : List String) (l : List Category) :
    (dedupGo seen l).Sublist l := by
  induction l generalizing seen with
  | nil => simp [dedupGo]
  | cons c rest ih =>
    simp only [dedupGo]
    by_cases hd : (seen.contains c.url) = true
    · rw [if_pos hd]
      exact (ih seen).cons c
    · rw [if_neg hd]
      exact (ih _).cons₂ c

/-- Every element surviving deduplication has a URL outside the seen set. -/
theorem mem_dedupGo_not_seen (seen : List String) (l : List Category) (c : Category)
    (hc : c ∈ dedupGo seen l) : (seen.contains c.url) = false := by
  induction l generalizing seen with
  | nil => simp [dedupGo] at hc
  | cons d rest ih =>
    simp only [dedupGo] at hc
    by_cases hd : (seen.contains d.url) = true
    · rw [if_pos hd] at hc
      exact ih seen hc
    · rw [if_neg hd] at hc
      rcases List.mem_cons.mp hc with h1 | h2
      · subst h1
        exact Bool.eq_false_iff.mpr hd
      · have h3 := ih (d.url :: seen) h2
        rw [List.contains_cons] at h3
        simp only [Bool.or_eq_false_iff] at h3
        exact h3.2

/-- Each survivor of deduplication is the first element of the input list
carrying its URL. -/
theorem dedupGo_find_first (seen : List String) (l : List Category) (c : Category)
    (hc : c ∈ dedupGo seen l) :
    l.find? (fun d => d.url == c.url) = some c := by
  induction l generalizing seen with
  | nil => simp [dedupGo] at hc
  | cons d rest ih =>
    simp only [dedupGo] at hc
    by_cases hd : (seen.contains d.url) = true
    · rw [if_pos hd] at hc
      have hcs := mem_dedupGo_not_seen seen rest c hc
      have hne : (d.url == c.url) = false := by
        rw [beq_eq_false_iff_ne]
        intro he
        rw [he] at hd
        rw [hcs] at hd
        exact Bool.noConfusion hd
      rw [List.find?_cons_of_neg _ (by simp [hne])]
      exact ih seen hc
    · rw [if_neg hd] at hc
      rcases List.mem_cons.mp hc with h1 | h2
      · subst h1
        exact List.find?_cons_of_pos _ (by simp)
      · have hcs := mem_dedupGo_not_seen (d.url :: seen) rest c h2
        rw [List.contains_cons] at hcs
        simp only [Bool.or_eq_false_iff] at hcs
        have hne : (d.url == c.url) = false := by
          rw [beq_eq_false_iff_ne]
          intro he
          exact (beq_eq_false_iff_ne.mp hcs.1) he.symm
        rw [List.find?_cons_of_neg _ (by simp [hne])]
        exact ih _ h2

/-- The URLs surviving deduplication are pairwise distinct. -/
theorem dedupGo_urls_nodup (seen : List String) (l : List Category) :
    ((dedupGo seen l).map Category.url).Nodup := by
  induction l generalizing seen with
  | nil => simp [dedupGo]
  | cons d rest ih =>
    simp only [dedupGo]
    by_cases hd : (seen.contains d.url) = true
    · rw [if_pos hd]
      exact ih seen
    · rw [if_neg hd]
      simp only [List.map_cons, List.nodup_cons]
      refine ⟨?_, ih _⟩
      intro hmem
      rcases List.mem_map.mp hmem with ⟨c, hc, hcu⟩
      have hcs := mem_dedupGo_not_seen _ _ _ hc
      rw [List.contains_cons, hcu] at hcs
      simp at hcs

/-- No qualifying URL is lost: every collected category URL appears among
the deduplicated URLs. -/
theorem dedupGo_covers (seen : List String) (l : List Category) (c : Category)
    (hc : c ∈ l) (hs : (seen.contains c.url) = false) :
    c.url ∈ (dedupGo seen l).map Category.url := by
  induction l generalizing seen with
  | nil => cases hc
  | cons d rest ih =>
    simp only [dedupGo]
    by_cases hd : (seen.contains d.url) = true
    · rw [if_pos hd]
      rcases List.mem_cons.mp hc with h1 | h2
      · subst h1
        rw [hs] at hd
        exact Bool.noConfusion hd
      · exact ih seen h2 hs
    · rw [if_neg hd]
      simp only [List.map_cons]
      rcases List.mem_cons.mp hc with h1 | h2
      · subst h1
        exact List.mem_cons_self _ _
      · by_cases he : c.url = d.url
        · rw [he]
          exact List.mem_cons_self _ _
        · have hs2 : ((d.url :: seen).contains c.url) = false := by
            rw [List.contains_cons, Bool.or_eq_false_iff]
            exact ⟨beq_eq_false_iff_ne.mpr he, hs⟩
          exact List.mem_cons_of_mem _ (ih _ h2 hs2)

/-! ## Claim theorems: category discovery exactness (C7) -/

/-- C7 counterexample: the link with empty `href` and visible text `abc`
satisfies the retention condition exactly as the claim words it (text
length in 3..49, no exclusion substring), yet discovery collects nothing
from a soup containing only that link — the code additionally requires a
non-empty `href` (`if href and text`), so the claim is false as stated. -/
theorem C7_empty_href_counterexample :
    claimed_keep ⟨"", "abc"⟩ = true ∧ all_links soup_empty_href = [] ∧
      categoriesOf accept_all soup_empty_href = [] :=
  ⟨by decide, by decide, by decide⟩

/-- C7 (amended): discovery collects exactly those links with a NON-EMPTY
href whose visible text length is between 3 and 49 inclusive and whose
lowercased href contains no exclusion substring (the resolved URL must
additionally pass `validate_url`, modelled by the `validate` parameter);
duplicates are removed by absolute URL preserving first-seen order (the
result is a sublist of the collected sequence with pairwise distinct URLs,
losing no URL), and each retained category is the first collected record
with its URL — so `found_by` records the first selector in the cascade
that matched that URL. -/
theorem C7_amended_discovery_exact (validate : String → Bool) (soup : String → List Link) :
    (∀ sel l, (sel, l) ∈ all_links soup ↔
        sel ∈ category_selectors ∧ l ∈ soup sel ∧ l.href ≠ "" ∧ l.text ≠ "" ∧
          3 ≤ l.text.length ∧ l.text.length ≤ 49 ∧
          ∀ s ∈ skip_substrings, str_contains (str_toLower l.href) s = false) ∧
    (dedupByUrl (categoriesOf validate soup)).Sublist (categoriesOf validate soup) ∧
    ((dedupByUrl (categoriesOf validate soup)).map Category.url).Nodup ∧
    (∀ c ∈ categoriesOf validate soup,
        c.url ∈ (dedupByUrl (categoriesOf validate soup)).map Category.url) ∧
    (∀ c ∈ dedupByUrl (categoriesOf validate soup),
        (categoriesOf validate soup).find? (fun d => d.url == c.url) = some c) := by
  refine ⟨?_, dedupGo_sublist [] _, dedupGo_urls_nodup [] _, ?_, ?_⟩
  · intro sel l
    rw [mem_all_links, link_ok_iff]
  · intro c hc
    exact dedupGo_covers [] _ c hc rfl
  · intro c hc
    exact dedupGo_find_first [] _ c hc

/-- Witness for C7: from a soup with one qualifying link, the single
discovered category is the first (and only) collected record with its
URL, with `found_by` the matching selector. -/
theorem C7_discovery_witness :
    (categoriesOf accept_all soup_one).find? (fun d => d.url == cat_one.url) =
      some cat_one :=
  (C7_amended_discovery_exact accept_all soup_one).2.2.2.2 cat_one (by decide)

end Doski
